import Mathlib

/-!
Verification of the hoWallet Ledger Mutation Engine.

This file shallowly embeds the balance/transaction core of the hoWallet
repository (Go):
  * `internal/model/models.go`        — domain records and request DTOs
  * `internal/db/accounts.go`         — SQL queries over the accounts table
  * `internal/db/transactions.go`     — SQL queries over the transactions table
  * `internal/service/account.go`     — AccountService
  * `internal/service/transaction.go` — TransactionService (the Ledger
    Mutation Engine: Create / Update / Delete with balance deltas)

Modelling decisions:
  * `uuid.UUID` and timestamps are modelled as `Nat`; database id generation
    is modelled by passing the freshly generated id as an explicit argument
    (the INSERT fails on a primary-key collision, as in the database).
  * `decimal.Decimal` (shopspring, exact base-10 arithmetic; balances are
    Postgres `numeric`) is modelled as `Rat`: the engine only adds and
    negates amounts, and both representations are exact for those
    operations.  `decimal.NewFromString` is modelled after the library
    parser: optional `e`/`E` exponent (32-bit bounded, as
    `strconv.ParseInt(…, 10, 32)`), at most one decimal point, and a
    `big.Int`-style signed digit string.
  * a SQL table is a `List` of records; `UPDATE … WHERE` maps over the list
    touching every matching row, `DELETE … WHERE` filters, and a
    single-row `SELECT`/`RETURNING` is `List.find?`.
  * `RunInTx` (all-or-nothing unit of work) is modelled by the services
    returning `Except`: on `.error` the caller keeps the pre-state
    (`runOp` below), which is exactly the rollback semantics.
  * the `updated_at` maintenance trigger is not modelled; no claim below
    depends on `updated_at`.
-/

namespace HoWallet

/-- Account kind: `card | deposit | cash` (internal/model/models.go). -/
inductive AccountType where
  | card
  | deposit
  | cash
deriving DecidableEq, Repr

/-- Transaction kind: `income | expense | transfer` (internal/model/models.go). -/
inductive TransactionType where
  | income
  | expense
  | transfer
deriving DecidableEq, Repr

/-- Account record (internal/model/models.go `Account`). -/
structure Account where
  id : Nat
  householdId : Nat
  name : String
  type : AccountType
  balance : Rat
  currency : String
  createdBy : Nat
  createdAt : Nat
  updatedAt : Nat
deriving DecidableEq, Repr

/-- Transaction record (internal/model/models.go `Transaction`). -/
structure Transaction where
  id : Nat
  householdId : Nat
  type : TransactionType
  description : String
  amount : Rat
  accountId : Nat
  destinationAccountId : Option Nat
  tags : List String
  note : Option String
  transactedAt : Nat
  createdBy : Nat
  createdAt : Nat
  updatedAt : Nat
deriving DecidableEq, Repr

/-- The database: the accounts and transactions tables. -/
structure DBState where
  accounts : List Account
  transactions : List Transaction
deriving DecidableEq, Repr

/-- Service-level errors (internal/service/account.go, transaction.go).
`storeError` stands for a wrapped database error. -/
inductive ServiceError where
  | invalidAmount
  | transferMissingDest
  | transactionNotFound
  | accountNotFound
  | accountHasTransactions
  | storeError
deriving DecidableEq, Repr

namespace decimal

/-- Digit string to `Nat` (big.Int base-10 accumulation). -/
def digitsToNat (cs : List Char) : Nat :=
  cs.foldl (fun acc c => acc * 10 + (c.toNat - 48)) 0

/-- Nonempty all-digit string to `Nat`; `none` otherwise. -/
def parseNatDigits (cs : List Char) : Option Nat :=
  if cs ≠ [] ∧ cs.all (fun c => c.isDigit) then some (digitsToNat cs) else none

/-- Signed integer literal, as `big.Int.SetString(s, 10)` /
`strconv.ParseInt(s, 10, …)` accept it: optional single leading `+`/`-`,
then one or more decimal digits. -/
def parseBigInt (cs : List Char) : Option Int :=
  match cs with
  | '+' :: rest => (parseNatDigits rest).map (fun n => (n : Int))
  | '-' :: rest => (parseNatDigits rest).map (fun n => -(n : Int))
  | _ => (parseNatDigits cs).map (fun n => (n : Int))

/-- Split at the first character satisfying `p`; `none` when no character
does.  Models `strings.IndexAny` / the first-occurrence scan. -/
def splitAtFirst (p : Char → Bool) : List Char → Option (List Char × List Char)
  | [] => none
  | c :: rest =>
    if p c then some ([], rest)
    else (splitAtFirst p rest).map (fun pr => (c :: pr.1, pr.2))

/-- Remove a single optional decimal point: returns the digit string with the
point erased together with the length of the fractional part; `none` when the
string has two or more points ("too many .s"). -/
def splitMantissa (cs : List Char) : Option (List Char × Nat) :=
  match splitAtFirst (fun c => c = '.') cs with
  | none => some (cs, 0)
  | some (intPart, rest) =>
    if rest.any (fun c => c = '.') then none
    else some (intPart ++ rest, rest.length)

/-- Exact value of a scaled decimal: coefficient `c` times `10 ^ e`. -/
def decValue (c : Int) (e : Int) : Rat :=
  if 0 ≤ e then (c : Rat) * (10 : Rat) ^ e.toNat
  else (c : Rat) / (10 : Rat) ^ (-e).toNat

/-- Mantissa (digits, optional point) with a decimal exponent to a `Rat`. -/
def mantToRat (mant : List Char) (e : Int) : Option Rat :=
  match splitMantissa mant with
  | none => none
  | some (digits, fracLen) =>
    (parseBigInt digits).map (fun c => decValue c (e - (fracLen : Int)))

/-- Model of shopspring `decimal.NewFromString`: split at the first `e`/`E`
(the exponent must be a 32-bit integer, per `strconv.ParseInt(…, 10, 32)`),
then parse the mantissa with at most one decimal point.  Returns `none`
exactly when the Go parser returns an error. -/
def NewFromString (value : String) : Option Rat :=
  let cs := value.toList
  match splitAtFirst (fun c => c = 'e' ∨ c = 'E') cs with
  | some (mant, expPart) =>
    match parseBigInt expPart with
    | none => none
    | some e =>
      if e < -2147483648 ∨ 2147483647 < e then none
      else mantToRat mant e
  | none => mantToRat cs 0

end decimal

namespace Queries

/-- Row predicate for `WHERE id = $1 AND household_id = $2` on accounts. -/
def accMatches (id hh : Nat) (a : Account) : Bool :=
  a.id == id && a.householdId == hh

/-- Row predicate for `WHERE id = $1 AND household_id = $2` on transactions. -/
def txnMatches (id hh : Nat) (t : Transaction) : Bool :=
  t.id == id && t.householdId == hh

/-- `INSERT INTO accounts … RETURNING` (internal/db/accounts.go
`CreateAccount`); fails on a primary-key collision. -/
def CreateAccount (s : DBState) (a : Account) : Option DBState :=
  if s.accounts.any (fun a2 => a2.id == a.id) then none
  else some { s with accounts := s.accounts ++ [a] }

/-- `SELECT … FROM accounts WHERE id = $1 AND household_id = $2`
(internal/db/accounts.go `GetAccount`). -/
def GetAccount (s : DBState) (id hh : Nat) : Option Account :=
  s.accounts.find? (accMatches id hh)

/-- Parameters of `UpdateAccount` (internal/db/accounts.go): COALESCE
semantics, an absent field keeps the stored value. -/
structure UpdateAccountParams where
  id : Nat
  householdId : Nat
  name : Option String
  type : Option AccountType
  currency : Option String

/-- Field part of `UPDATE accounts SET name = COALESCE($3, name), type =
COALESCE($4, type), currency = COALESCE($5, currency)`. -/
def applyAccountUpdate (p : UpdateAccountParams) (a : Account) : Account :=
  { a with
    name := p.name.getD a.name
    type := p.type.getD a.type
    currency := p.currency.getD a.currency }

/-- `UPDATE accounts … WHERE id = $1 AND household_id = $2 RETURNING …`
(internal/db/accounts.go `UpdateAccount`); `none` when no row matches
(the `queryRow.Scan` then fails with no-rows). -/
def UpdateAccount (s : DBState) (p : UpdateAccountParams) :
    Option (Account × DBState) :=
  match s.accounts.find? (accMatches p.id p.householdId) with
  | none => none
  | some a =>
    some (applyAccountUpdate p a,
      { s with accounts := s.accounts.map (fun a2 =>
          if accMatches p.id p.householdId a2 then applyAccountUpdate p a2 else a2) })

/-- `UPDATE accounts SET balance = balance + $2 WHERE id = $1`
(internal/db/accounts.go `UpdateAccountBalance`): the atomic signed-delta
increment; a missing id makes it a no-op, as the SQL UPDATE matches no row. -/
def UpdateAccountBalance (s : DBState) (id : Nat) (delta : Rat) : DBState :=
  { s with accounts := s.accounts.map (fun a =>
      if a.id == id then { a with balance := a.balance + delta } else a) }

/-- `DELETE FROM accounts WHERE id = $1 AND household_id = $2`
(internal/db/accounts.go `DeleteAccount`); deleting no rows is a success. -/
def DeleteAccount (s : DBState) (id hh : Nat) : DBState :=
  { s with accounts := s.accounts.filter (fun a => !(accMatches id hh a)) }

/-- `SELECT COUNT(*) FROM transactions WHERE account_id = $1`
(internal/db/accounts.go `CountTransactionsByAccount`).  Note: the SQL
counts source references only. -/
def CountTransactionsByAccount (s : DBState) (accountId : Nat) : Nat :=
  (s.transactions.filter (fun t => t.accountId == accountId)).length

/-- `INSERT INTO transactions … RETURNING` (internal/db/transactions.go
`CreateTransaction`); fails on a primary-key collision. -/
def CreateTransaction (s : DBState) (t : Transaction) : Option DBState :=
  if s.transactions.any (fun t2 => t2.id == t.id) then none
  else some { s with transactions := s.transactions ++ [t] }

/-- `SELECT … FROM transactions WHERE id = $1 AND household_id = $2`
(internal/db/transactions.go `GetTransaction`). -/
def GetTransaction (s : DBState) (id hh : Nat) : Option Transaction :=
  s.transactions.find? (txnMatches id hh)

/-- Parameters of `UpdateTransaction` (internal/db/transactions.go): every
mutable field is overwritten. -/
structure UpdateTransactionParams where
  id : Nat
  householdId : Nat
  description : String
  amount : Rat
  accountId : Nat
  destinationAccountId : Option Nat
  tags : List String
  note : Option String
  transactedAt : Nat
  type : TransactionType

/-- Field part of `UPDATE transactions SET description = $3, amount = $4,
account_id = $5, destination_account_id = $6, tags = $7, note = $8,
transacted_at = $9, type = $10`. -/
def applyTxnUpdate (p : UpdateTransactionParams) (t : Transaction) : Transaction :=
  { t with
    description := p.description
    amount := p.amount
    accountId := p.accountId
    destinationAccountId := p.destinationAccountId
    tags := p.tags
    note := p.note
    transactedAt := p.transactedAt
    type := p.type }

/-- `UPDATE transactions … WHERE id = $1 AND household_id = $2 RETURNING …`
(internal/db/transactions.go `UpdateTransaction`); `none` when no row
matches. -/
def UpdateTransaction (s : DBState) (p : UpdateTransactionParams) :
    Option (Transaction × DBState) :=
  match s.transactions.find? (txnMatches p.id p.householdId) with
  | none => none
  | some t =>
    some (applyTxnUpdate p t,
      { s with transactions := s.transactions.map (fun t2 =>
          if txnMatches p.id p.householdId t2 then applyTxnUpdate p t2 else t2) })

/-- `DELETE FROM transactions WHERE id = $1 AND household_id = $2
RETURNING …` (internal/db/transactions.go `DeleteTransaction`); `none` when
no row matches, otherwise the deleted row is returned. -/
def DeleteTransaction (s : DBState) (id hh : Nat) :
    Option (Transaction × DBState) :=
  match s.transactions.find? (txnMatches id hh) with
  | none => none
  | some t =>
    some (t, { s with transactions :=
      s.transactions.filter (fun t2 => !(txnMatches id hh t2)) })

end Queries

/-- `model.CreateTransactionRequest`: `Amount` arrives as a string; `Tags`
may be absent (Go `nil` slice). -/
structure CreateTransactionRequest where
  type : TransactionType
  description : String
  amount : String
  accountId : Nat
  destinationAccountId : Option Nat
  tags : Option (List String)
  note : Option String
  transactedAt : Nat

/-- `model.UpdateTransactionRequest`: same shape as the create request. -/
structure UpdateTransactionRequest where
  type : TransactionType
  description : String
  amount : String
  accountId : Nat
  destinationAccountId : Option Nat
  tags : Option (List String)
  note : Option String
  transactedAt : Nat

/-- `model.UpdateAccountRequest`: partial update, every field optional. -/
structure UpdateAccountRequest where
  name : Option String
  type : Option AccountType
  currency : Option String

namespace TransactionService

/-- Balance-delta application (internal/service/transaction.go
`applyBalanceChange`): income adds the amount to the source account;
expense adds its negation; a transfer subtracts from the source and adds to
the destination, failing `ErrTransferMissingDest` when the destination id
is absent. -/
def applyBalanceChange (s : DBState) (txnType : TransactionType)
    (amount : Rat) (accountId : Nat) (destId : Option Nat) :
    Except ServiceError DBState :=
  match txnType with
  | .income => .ok (Queries.UpdateAccountBalance s accountId amount)
  | .expense => .ok (Queries.UpdateAccountBalance s accountId (-amount))
  | .transfer =>
    match destId with
    | none => .error .transferMissingDest
    | some d =>
      .ok (Queries.UpdateAccountBalance
            (Queries.UpdateAccountBalance s accountId (-amount)) d amount)

/-- Balance-delta reversal (internal/service/transaction.go
`reverseBalanceChange`): the negated deltas; for a transfer with an absent
destination id it returns success without touching any balance. -/
def reverseBalanceChange (s : DBState) (txnType : TransactionType)
    (amount : Rat) (accountId : Nat) (destId : Option Nat) :
    Except ServiceError DBState :=
  match txnType with
  | .income => .ok (Queries.UpdateAccountBalance s accountId (-amount))
  | .expense => .ok (Queries.UpdateAccountBalance s accountId amount)
  | .transfer =>
    match destId with
    | none => .ok s
    | some d =>
      .ok (Queries.UpdateAccountBalance
            (Queries.UpdateAccountBalance s accountId amount) d (-amount))

/-- The transaction row inserted by `Create` (the repository's
`CreateTransactionParams` together with the database-generated id and
timestamps; a Go `nil` tags slice is stored as the empty list). -/
def mkTxn (householdId userId : Nat) (req : CreateTransactionRequest)
    (amount : Rat) (newId now : Nat) : Transaction :=
  { id := newId
    householdId := householdId
    type := req.type
    description := req.description
    amount := amount
    accountId := req.accountId
    destinationAccountId := req.destinationAccountId
    tags := req.tags.getD []
    note := req.note
    transactedAt := req.transactedAt
    createdBy := userId
    createdAt := now
    updatedAt := now }

/-- `TransactionService.Create` (internal/service/transaction.go): parse the
amount, check a transfer has a destination, then atomically insert the
record and apply the balance deltas.  `newId` is the database-generated id
and `now` the insertion timestamp. -/
def Create (s : DBState) (householdId userId : Nat)
    (req : CreateTransactionRequest) (newId now : Nat) :
    Except ServiceError (Transaction × DBState) :=
  match decimal.NewFromString req.amount with
  | none => .error .invalidAmount
  | some amount =>
    if req.type = .transfer ∧ req.destinationAccountId = none then
      .error .transferMissingDest
    else
      match Queries.CreateTransaction s
          (mkTxn householdId userId req amount newId now) with
      | none => .error .storeError
      | some s1 =>
        match applyBalanceChange s1 req.type amount req.accountId
            req.destinationAccountId with
        | .error e => .error e
        | .ok s2 => .ok (mkTxn householdId userId req amount newId now, s2)

/-- `TransactionService.Get` (internal/service/transaction.go): any lookup
failure is surfaced as `ErrTransactionNotFound`. -/
def Get (s : DBState) (id householdId : Nat) :
    Except ServiceError Transaction :=
  match Queries.GetTransaction s id householdId with
  | none => .error .transactionNotFound
  | some t => .ok t

/-- The `repository.UpdateTransactionParams` built by `Update` from the
request (a Go `nil` tags slice becomes the empty list). -/
def updParams (id householdId : Nat) (req : UpdateTransactionRequest)
    (newAmount : Rat) : Queries.UpdateTransactionParams :=
  { id := id
    householdId := householdId
    description := req.description
    amount := newAmount
    accountId := req.accountId
    destinationAccountId := req.destinationAccountId
    tags := req.tags.getD []
    note := req.note
    transactedAt := req.transactedAt
    type := req.type }

/-- `TransactionService.Update` (internal/service/transaction.go): parse and
validate the new input, fetch the pre-image, reverse the pre-image's deltas
(its own kind/amount/accounts), overwrite the record, then apply the new
deltas — all in one unit of work. -/
def Update (s : DBState) (id householdId userId : Nat)
    (req : UpdateTransactionRequest) :
    Except ServiceError (Transaction × DBState) :=
  match decimal.NewFromString req.amount with
  | none => .error .invalidAmount
  | some newAmount =>
    if req.type = .transfer ∧ req.destinationAccountId = none then
      .error .transferMissingDest
    else
      match Queries.GetTransaction s id householdId with
      | none => .error .transactionNotFound
      | some old =>
        match reverseBalanceChange s old.type old.amount old.accountId
            old.destinationAccountId with
        | .error e => .error e
        | .ok s1 =>
          match Queries.UpdateTransaction s1
              (updParams id householdId req newAmount) with
          | none => .error .storeError
          | some (txn, s2) =>
            match applyBalanceChange s2 req.type newAmount req.accountId
                req.destinationAccountId with
            | .error e => .error e
            | .ok s3 => .ok (txn, s3)

/-- `TransactionService.Delete` (internal/service/transaction.go): delete the
record capturing the pre-image, then reverse its deltas, atomically. -/
def Delete (s : DBState) (id householdId : Nat) :
    Except ServiceError DBState :=
  match Queries.DeleteTransaction s id householdId with
  | none => .error .transactionNotFound
  | some (deleted, s1) =>
    reverseBalanceChange s1 deleted.type deleted.amount deleted.accountId
      deleted.destinationAccountId

end TransactionService

namespace AccountService

/-- `AccountService.Get` (internal/service/account.go): any lookup failure is
surfaced as `ErrAccountNotFound`. -/
def Get (s : DBState) (id householdId : Nat) : Except ServiceError Account :=
  match Queries.GetAccount s id householdId with
  | none => .error .accountNotFound
  | some a => .ok a

/-- `AccountService.Update` (internal/service/account.go): partial update of
name, kind and currency only. -/
def Update (s : DBState) (id householdId : Nat) (req : UpdateAccountRequest) :
    Except ServiceError (Account × DBState) :=
  match Queries.UpdateAccount s
      { id := id
        householdId := householdId
        name := req.name
        type := req.type
        currency := req.currency } with
  | none => .error .accountNotFound
  | some (a, s1) => .ok (a, s1)

/-- `AccountService.Delete` (internal/service/account.go): refuse with
`ErrAccountHasTransactions` when `CountTransactionsByAccount` is positive,
else delete the row. -/
def Delete (s : DBState) (id householdId : Nat) :
    Except ServiceError DBState :=
  if Queries.CountTransactionsByAccount s id > 0 then
    .error .accountHasTransactions
  else
    .ok (Queries.DeleteAccount s id householdId)

end AccountService

/-- A ledger mutation: one Create/Update/Delete call into the engine. -/
inductive LedgerOp where
  | create (householdId userId : Nat) (req : CreateTransactionRequest)
      (newId now : Nat)
  | update (id householdId userId : Nat) (req : UpdateTransactionRequest)
  | delete (id householdId : Nat)

/-- Run one ledger mutation with `RunInTx` semantics: on any error the
transaction rolls back, so the database state is unchanged. -/
def runOp (s : DBState) (op : LedgerOp) : DBState :=
  match op with
  | .create hh uid req newId now =>
    match TransactionService.Create s hh uid req newId now with
    | .ok (_, s2) => s2
    | .error _ => s
  | .update id hh uid req =>
    match TransactionService.Update s id hh uid req with
    | .ok (_, s2) => s2
    | .error _ => s
  | .delete id hh =>
    match TransactionService.Delete s id hh with
    | .ok s2 => s2
    | .error _ => s

/-- Run a sequence of ledger mutations. -/
def runOps (s : DBState) (ops : List LedgerOp) : DBState :=
  ops.foldl runOp s

/-- The signed delta a transaction of the given kind/amount/accounts applies
to the account `aid` — the spec's delta table: income `+A` on the source,
expense `-A` on the source, transfer `-A` on the source and `+A` on the
destination. -/
def signedDelta (ty : TransactionType) (amount : Rat) (srcId : Nat)
    (dstId : Option Nat) (aid : Nat) : Rat :=
  match ty with
  | .income => if srcId = aid then amount else 0
  | .expense => if srcId = aid then -amount else 0
  | .transfer =>
    (if srcId = aid then -amount else 0) +
    (if dstId = some aid then amount else 0)

/-- The signed delta of a stored transaction record on account `aid`. -/
def txnDelta (t : Transaction) (aid : Nat) : Rat :=
  signedDelta t.type t.amount t.accountId t.destinationAccountId aid

/-- Sum of the signed deltas of all listed transactions on account `aid`. -/
def sumDeltas (ts : List Transaction) (aid : Nat) : Rat :=
  (ts.map (fun t => txnDelta t aid)).sum

/-- Balance of the account with id `aid`, when it exists. -/
def getBalance (s : DBState) (aid : Nat) : Option Rat :=
  (s.accounts.find? (fun a => a.id == aid)).map (fun a => a.balance)

/-- The balance reconstruction invariant: every account's balance is its
initial balance (`init` of its id) plus the sum of the signed deltas of all
currently-existing transactions referencing it. -/
def BalanceInv (init : Nat → Rat) (s : DBState) : Prop :=
  ∀ a ∈ s.accounts, a.balance = init a.id + sumDeltas s.transactions a.id

/-- Transaction ids are unique (the primary key). -/
def UniqueTxnIds (s : DBState) : Prop :=
  (s.transactions.map (fun t => t.id)).Nodup

/-- Every stored transfer carries a destination account id (enforced by the
engine's validation on every create and update). -/
def TransfersHaveDest (s : DBState) : Prop :=
  ∀ t ∈ s.transactions, t.type = .transfer → t.destinationAccountId ≠ none

/-- A well-formed ledger state: primary-key uniqueness, transfer
destinations present, and the balance reconstruction invariant. -/
def GoodState (init : Nat → Rat) (s : DBState) : Prop :=
  UniqueTxnIds s ∧ TransfersHaveDest s ∧ BalanceInv init s

/-! Decidability of the invariants and results, for concrete witnesses. -/

deriving instance DecidableEq for Except

instance (s : DBState) : Decidable (UniqueTxnIds s) := by
  unfold UniqueTxnIds
  exact inferInstance

instance (s : DBState) : Decidable (TransfersHaveDest s) := by
  unfold TransfersHaveDest
  exact inferInstance

instance (init : Nat → Rat) (s : DBState) : Decidable (BalanceInv init s) := by
  unfold BalanceInv
  exact inferInstance

instance (init : Nat → Rat) (s : DBState) : Decidable (GoodState init s) := by
  unfold GoodState
  exact inferInstance

/-! General list helpers. -/

theorem map_eq_self_of {α : Type} {f : α → α} {l : List α}
    (h : ∀ x ∈ l, f x = x) : l.map f = l :=
  (List.map_congr_left h).trans (List.map_id l)

theorem find?_map_comm {α : Type} (p : α → Bool) (f : α → α)
    (hf : ∀ x, p (f x) = p x) (l : List α) :
    (l.map f).find? p = (l.find? p).map f := by
  rw [List.find?_map]
  have hpf : p ∘ f = p := funext hf
  rw [hpf]

/-! Store-level lemmas about balance-delta application. -/

theorem updateBalance_transactions (s : DBState) (i : Nat) (d : Rat) :
    (Queries.UpdateAccountBalance s i d).transactions = s.transactions := rfl

theorem updateBalance_accounts (s : DBState) (i : Nat) (d : Rat) :
    (Queries.UpdateAccountBalance s i d).accounts
      = s.accounts.map (fun a =>
          { a with balance := a.balance + (if a.id = i then d else 0) }) := by
  show s.accounts.map _ = _
  apply List.map_congr_left
  intro a _
  by_cases h : a.id = i
  · simp [h]
  · simp [h]

theorem updateBalance_updateBalance_accounts (s : DBState) (i1 i2 : Nat)
    (d1 d2 : Rat) :
    (Queries.UpdateAccountBalance (Queries.UpdateAccountBalance s i1 d1) i2 d2).accounts
      = s.accounts.map (fun a =>
          { a with balance := a.balance +
              ((if a.id = i1 then d1 else 0) + (if a.id = i2 then d2 else 0)) }) := by
  rw [updateBalance_accounts, updateBalance_accounts, List.map_map]
  apply List.map_congr_left
  intro a _
  simp only [Function.comp]
  simp [add_assoc]

theorem acc_bal_congr (a : Account) {x y : Rat} (h : x = y) :
    ({ a with balance := x } : Account) = { a with balance := y } := by
  rw [h]

/-- Characterization of a successful `applyBalanceChange`: row-wise, every
account's balance gains exactly the signed delta of the applied change, and
the transactions table is untouched. -/
theorem applyBalanceChange_ok {s s2 : DBState} {ty : TransactionType}
    {A : Rat} {src : Nat} {dst : Option Nat}
    (h : TransactionService.applyBalanceChange s ty A src dst = .ok s2) :
    s2.transactions = s.transactions ∧
    s2.accounts = s.accounts.map (fun a =>
      { a with balance := a.balance + signedDelta ty A src dst a.id }) := by
  cases ty with
  | income =>
    simp only [TransactionService.applyBalanceChange, Except.ok.injEq] at h
    subst h
    refine ⟨rfl, ?_⟩
    rw [updateBalance_accounts]
    apply List.map_congr_left
    intro a _
    apply acc_bal_congr
    simp only [signedDelta]
    split_ifs <;> first | ring1 | omega
  | expense =>
    simp only [TransactionService.applyBalanceChange, Except.ok.injEq] at h
    subst h
    refine ⟨rfl, ?_⟩
    rw [updateBalance_accounts]
    apply List.map_congr_left
    intro a _
    apply acc_bal_congr
    simp only [signedDelta]
    split_ifs <;> first | ring1 | omega
  | transfer =>
    cases dst with
    | none => simp [TransactionService.applyBalanceChange] at h
    | some d =>
      simp only [TransactionService.applyBalanceChange, Except.ok.injEq] at h
      subst h
      refine ⟨rfl, ?_⟩
      rw [updateBalance_updateBalance_accounts]
      apply List.map_congr_left
      intro a _
      apply acc_bal_congr
      simp only [signedDelta, Option.some.injEq]
      split_ifs <;> first | ring1 | omega

/-- Characterization of a successful `reverseBalanceChange` when the change
being reversed is not a destination-less transfer: every account's balance
loses exactly the signed delta; the transactions table is untouched. -/
theorem reverseBalanceChange_ok {s s2 : DBState} {ty : TransactionType}
    {A : Rat} {src : Nat} {dst : Option Nat}
    (hdst : ty = .transfer → dst ≠ none)
    (h : TransactionService.reverseBalanceChange s ty A src dst = .ok s2) :
    s2.transactions = s.transactions ∧
    s2.accounts = s.accounts.map (fun a =>
      { a with balance := a.balance - signedDelta ty A src dst a.id }) := by
  cases ty with
  | income =>
    simp only [TransactionService.reverseBalanceChange, Except.ok.injEq] at h
    subst h
    refine ⟨rfl, ?_⟩
    rw [updateBalance_accounts]
    apply List.map_congr_left
    intro a _
    apply acc_bal_congr
    simp only [signedDelta]
    split_ifs <;> first | ring1 | omega
  | expense =>
    simp only [TransactionService.reverseBalanceChange, Except.ok.injEq] at h
    subst h
    refine ⟨rfl, ?_⟩
    rw [updateBalance_accounts]
    apply List.map_congr_left
    intro a _
    apply acc_bal_congr
    simp only [signedDelta]
    split_ifs <;> first | ring1 | omega
  | transfer =>
    cases dst with
    | none => exact absurd rfl (hdst rfl)
    | some d =>
      simp only [TransactionService.reverseBalanceChange, Except.ok.injEq] at h
      subst h
      refine ⟨rfl, ?_⟩
      rw [updateBalance_updateBalance_accounts]
      apply List.map_congr_left
      intro a _
      apply acc_bal_congr
      simp only [signedDelta, Option.some.injEq]
      split_ifs <;> first | ring1 | omega

/-! Lemmas about single-row mutation of the transactions table.  The
predicate `p` below is always a `WHERE id = … AND household_id = …` match,
so any two rows satisfying it share their id; with the primary key unique,
at most one row is touched. -/

theorem txnMatches_id {id hh : Nat} {t : Transaction}
    (h : Queries.txnMatches id hh t = true) : t.id = id := by
  simp only [Queries.txnMatches, Bool.and_eq_true, beq_iff_eq] at h
  exact h.1

theorem sum_map_update_one (p : Transaction → Bool)
    (g : Transaction → Transaction) (v : Transaction → Rat)
    (hp : ∀ t, p t = true → ∀ t', p t' = true → t.id = t'.id) :
    ∀ (ts : List Transaction) (old : Transaction),
      (ts.map (fun t => t.id)).Nodup → ts.find? p = some old →
      ((ts.map (fun t => if p t then g t else t)).map v).sum
        = ((ts.map v).sum - v old) + v (g old) := by
  intro ts
  induction ts with
  | nil => intro old _ hfind; simp [List.find?] at hfind
  | cons t rest ih =>
    intro old hnd hfind
    simp only [List.map_cons, List.nodup_cons] at hnd
    cases hpt : p t with
    | true =>
      have hold : old = t := by
        rw [List.find?_cons, hpt] at hfind
        exact (Option.some.injEq _ _ ▸ hfind).symm
      subst hold
      have hrest : rest.map (fun t2 => if p t2 then g t2 else t2) = rest := by
        apply map_eq_self_of
        intro t2 ht2
        rw [if_neg]
        intro hpt2
        exact hnd.1 (List.mem_map.2 ⟨t2, ht2, ((hp t2 hpt2 old hpt)).symm ▸ rfl⟩)
      simp only [List.map_cons, if_pos hpt, hrest, List.sum_cons]
      ring
    | false =>
      rw [List.find?_cons, hpt] at hfind
      have := ih old hnd.2 hfind
      simp only [List.map_cons, if_neg (by simp [hpt] : ¬ p t = true),
        List.sum_cons, this]
      ring

theorem sum_filter_remove_one (p : Transaction → Bool) (v : Transaction → Rat)
    (hp : ∀ t, p t = true → ∀ t', p t' = true → t.id = t'.id) :
    ∀ (ts : List Transaction) (old : Transaction),
      (ts.map (fun t => t.id)).Nodup → ts.find? p = some old →
      ((ts.filter (fun t => !(p t))).map v).sum = (ts.map v).sum - v old := by
  intro ts
  induction ts with
  | nil => intro old _ hfind; simp [List.find?] at hfind
  | cons t rest ih =>
    intro old hnd hfind
    simp only [List.map_cons, List.nodup_cons] at hnd
    cases hpt : p t with
    | true =>
      have hold : old = t := by
        rw [List.find?_cons, hpt] at hfind
        exact (Option.some.injEq _ _ ▸ hfind).symm
      subst hold
      have hrest : rest.filter (fun t2 => !(p t2)) = rest := by
        rw [List.filter_eq_self]
        intro t2 ht2
        simp only [Bool.not_eq_true']
        cases h2 : p t2 with
        | false => rfl
        | true =>
          exact absurd
            (List.mem_map.2 ⟨t2, ht2, ((hp t2 h2 old hpt)).symm ▸ rfl⟩) hnd.1
      rw [List.filter_cons_of_neg (by simp [hpt]), hrest, List.map_cons,
        List.sum_cons]
      ring
    | false =>
      rw [List.find?_cons, hpt] at hfind
      have := ih old hnd.2 hfind
      rw [List.filter_cons_of_pos (by simp [hpt]), List.map_cons,
        List.sum_cons, this, List.map_cons, List.sum_cons]
      ring

theorem map_update_one_ids (p : Transaction → Bool)
    (g : Transaction → Transaction) (hg : ∀ t, (g t).id = t.id)
    (ts : List Transaction) :
    (ts.map (fun t => if p t then g t else t)).map (fun t => t.id)
      = ts.map (fun t => t.id) := by
  rw [List.map_map]
  apply List.map_congr_left
  intro t _
  simp only [Function.comp]
  by_cases h : p t
  · simp [h, hg]
  · simp [h]

/-! Characterizations of the single-row store operations. -/

theorem createTransaction_ok {s s1 : DBState} {t : Transaction}
    (h : Queries.CreateTransaction s t = some s1) :
    s1.transactions = s.transactions ++ [t] ∧ s1.accounts = s.accounts ∧
    ∀ t2 ∈ s.transactions, ¬ t2.id = t.id := by
  unfold Queries.CreateTransaction at h
  by_cases hany : s.transactions.any (fun t2 => t2.id == t.id)
  · rw [if_pos hany] at h
    exact absurd h (by simp)
  · rw [if_neg hany] at h
    injection h with h
    subst h
    refine ⟨rfl, rfl, ?_⟩
    intro t2 ht2
    simp only [List.any_eq_true, beq_iff_eq, not_exists, not_and] at hany
    exact hany t2 ht2

theorem updateTransaction_ok {s s2 : DBState}
    {p : Queries.UpdateTransactionParams} {txn : Transaction}
    (h : Queries.UpdateTransaction s p = some (txn, s2)) :
    ∃ old,
      s.transactions.find? (Queries.txnMatches p.id p.householdId) = some old ∧
      txn = Queries.applyTxnUpdate p old ∧ s2.accounts = s.accounts ∧
      s2.transactions = s.transactions.map (fun t2 =>
        if Queries.txnMatches p.id p.householdId t2
        then Queries.applyTxnUpdate p t2 else t2) := by
  unfold Queries.UpdateTransaction at h
  cases hfind : s.transactions.find? (Queries.txnMatches p.id p.householdId) with
  | none => rw [hfind] at h; exact absurd h (by simp)
  | some old =>
    rw [hfind] at h
    injection h with h
    injection h with h1 h2
    exact ⟨old, rfl, h1.symm, by rw [← h2], by rw [← h2]⟩

theorem deleteTransaction_ok {s s1 : DBState} {id hh : Nat}
    {deleted : Transaction}
    (h : Queries.DeleteTransaction s id hh = some (deleted, s1)) :
    s.transactions.find? (Queries.txnMatches id hh) = some deleted ∧
    s1.accounts = s.accounts ∧
    s1.transactions = s.transactions.filter (fun t2 =>
      !(Queries.txnMatches id hh t2)) := by
  unfold Queries.DeleteTransaction at h
  cases hfind : s.transactions.find? (Queries.txnMatches id hh) with
  | none => rw [hfind] at h; exact absurd h (by simp)
  | some t =>
    rw [hfind] at h
    injection h with h
    injection h with h1 h2
    subst h1
    exact ⟨rfl, by rw [← h2], by rw [← h2]⟩

theorem sumDeltas_append (ts : List Transaction) (t : Transaction) (aid : Nat) :
    sumDeltas (ts ++ [t]) aid = sumDeltas ts aid + txnDelta t aid := by
  simp [sumDeltas]

/-! Characterizations of the three engine operations on their success path. -/

theorem create_ok {s s2 : DBState} {hh uid newId now : Nat}
    {req : CreateTransactionRequest} {txn : Transaction}
    (h : TransactionService.Create s hh uid req newId now = .ok (txn, s2)) :
    ∃ amount, decimal.NewFromString req.amount = some amount ∧
      ¬(req.type = .transfer ∧ req.destinationAccountId = none) ∧
      txn = TransactionService.mkTxn hh uid req amount newId now ∧
      (∀ t2 ∈ s.transactions, ¬ t2.id = newId) ∧
      s2.transactions = s.transactions ++ [txn] ∧
      s2.accounts = s.accounts.map (fun a =>
        { a with balance := (a.balance +
            signedDelta req.type amount req.accountId
              req.destinationAccountId a.id) }) := by
  unfold TransactionService.Create at h
  cases hamt : decimal.NewFromString req.amount with
  | none => rw [hamt] at h; simp at h
  | some amount =>
    rw [hamt] at h
    dsimp only at h
    by_cases hguard : req.type = .transfer ∧ req.destinationAccountId = none
    · rw [if_pos hguard] at h; simp at h
    · rw [if_neg hguard] at h
      cases hins : Queries.CreateTransaction s
          (TransactionService.mkTxn hh uid req amount newId now) with
      | none => rw [hins] at h; simp at h
      | some s1 =>
        rw [hins] at h
        dsimp only at h
        cases happ : TransactionService.applyBalanceChange s1 req.type amount
            req.accountId req.destinationAccountId with
        | error e => rw [happ] at h; simp at h
        | ok s2b =>
          rw [happ] at h
          dsimp only at h
          simp only [Except.ok.injEq, Prod.mk.injEq] at h
          obtain ⟨htxn, hs2⟩ := h
          subst hs2
          obtain ⟨hins1, hins2, hfresh⟩ := createTransaction_ok hins
          obtain ⟨happ1, happ2⟩ := applyBalanceChange_ok happ
          exact ⟨amount, rfl, hguard, htxn.symm, hfresh,
            by rw [happ1, hins1, htxn],
            by rw [happ2, hins2]⟩

theorem update_ok {s s3 : DBState} {id hh uid : Nat}
    {req : UpdateTransactionRequest} {txn : Transaction}
    (hdest : ∀ t, s.transactions.find? (Queries.txnMatches id hh) = some t →
      t.type = .transfer → t.destinationAccountId ≠ none)
    (h : TransactionService.Update s id hh uid req = .ok (txn, s3)) :
    ∃ amount old, decimal.NewFromString req.amount = some amount ∧
      ¬(req.type = .transfer ∧ req.destinationAccountId = none) ∧
      s.transactions.find? (Queries.txnMatches id hh) = some old ∧
      txn = Queries.applyTxnUpdate
        (TransactionService.updParams id hh req amount) old ∧
      s3.transactions = s.transactions.map (fun t2 =>
        if Queries.txnMatches id hh t2
        then Queries.applyTxnUpdate
          (TransactionService.updParams id hh req amount) t2 else t2) ∧
      s3.accounts = s.accounts.map (fun a =>
        { a with balance := (a.balance - txnDelta old a.id +
            signedDelta req.type amount req.accountId
              req.destinationAccountId a.id) }) := by
  unfold TransactionService.Update at h
  cases hamt : decimal.NewFromString req.amount with
  | none => rw [hamt] at h; simp at h
  | some amount =>
    rw [hamt] at h
    dsimp only at h
    by_cases hguard : req.type = .transfer ∧ req.destinationAccountId = none
    · rw [if_pos hguard] at h; simp at h
    · rw [if_neg hguard] at h
      cases hget : Queries.GetTransaction s id hh with
      | none => rw [hget] at h; simp at h
      | some old =>
        rw [hget] at h
        dsimp only at h
        have holddest : old.type = .transfer → old.destinationAccountId ≠ none :=
          hdest old hget
        cases hrev : TransactionService.reverseBalanceChange s old.type
            old.amount old.accountId old.destinationAccountId with
        | error e => rw [hrev] at h; simp at h
        | ok s1 =>
          rw [hrev] at h
          dsimp only at h
          obtain ⟨hrev1, hrev2⟩ := reverseBalanceChange_ok holddest hrev
          cases hupd : Queries.UpdateTransaction s1
              (TransactionService.updParams id hh req amount) with
          | none => rw [hupd] at h; simp at h
          | some pr =>
            obtain ⟨txn1, s2⟩ := pr
            rw [hupd] at h
            dsimp only at h
            obtain ⟨old1, hfind1, htxn1, hacc2, htr2⟩ := updateTransaction_ok hupd
            rw [hrev1] at hfind1
            have hold1 : old1 = old := by
              have : some old1 = some old := by rw [← hfind1]; exact hget
              exact Option.some.inj this
            subst hold1
            cases happ : TransactionService.applyBalanceChange s2 req.type
                amount req.accountId req.destinationAccountId with
            | error e => rw [happ] at h; simp at h
            | ok s3b =>
              rw [happ] at h
              dsimp only at h
              simp only [Except.ok.injEq, Prod.mk.injEq] at h
              obtain ⟨htxn, hs3⟩ := h
              subst hs3
              obtain ⟨happ1, happ2⟩ := applyBalanceChange_ok happ
              refine ⟨amount, old1, rfl, hguard, hget, by rw [← htxn, htxn1],
                ?_, ?_⟩
              · rw [happ1, htr2, hrev1]
                rfl
              · rw [happ2, hacc2, hrev2, List.map_map]
                apply List.map_congr_left
                intro a _
                rfl

theorem delete_ok {s s2 : DBState} {id hh : Nat}
    (hdest : TransfersHaveDest s)
    (h : TransactionService.Delete s id hh = .ok s2) :
    ∃ old, s.transactions.find? (Queries.txnMatches id hh) = some old ∧
      s2.transactions = s.transactions.filter (fun t2 =>
        !(Queries.txnMatches id hh t2)) ∧
      s2.accounts = s.accounts.map (fun a =>
        { a with balance := a.balance - txnDelta old a.id }) := by
  unfold TransactionService.Delete at h
  cases hdel : Queries.DeleteTransaction s id hh with
  | none => rw [hdel] at h; simp at h
  | some pr =>
    obtain ⟨deleted, s1⟩ := pr
    rw [hdel] at h
    dsimp only at h
    obtain ⟨hfind, hacc1, htr1⟩ := deleteTransaction_ok hdel
    have holdmem : deleted ∈ s.transactions := List.mem_of_find?_eq_some hfind
    obtain ⟨hrev1, hrev2⟩ := reverseBalanceChange_ok (hdest deleted holdmem) h
    refine ⟨deleted, hfind, by rw [hrev1, htr1], ?_⟩
    rw [hrev2, hacc1]
    apply List.map_congr_left
    intro a _
    rfl

/-! Projection facts used when chasing the constructed records. -/

theorem mkTxn_id (hh uid : Nat) (req : CreateTransactionRequest)
    (amount : Rat) (newId now : Nat) :
    (TransactionService.mkTxn hh uid req amount newId now).id = newId := rfl

theorem mkTxn_type (hh uid : Nat) (req : CreateTransactionRequest)
    (amount : Rat) (newId now : Nat) :
    (TransactionService.mkTxn hh uid req amount newId now).type = req.type := rfl

theorem mkTxn_dest (hh uid : Nat) (req : CreateTransactionRequest)
    (amount : Rat) (newId now : Nat) :
    (TransactionService.mkTxn hh uid req amount newId now).destinationAccountId
      = req.destinationAccountId := rfl

theorem mkTxn_householdId (hh uid : Nat) (req : CreateTransactionRequest)
    (amount : Rat) (newId now : Nat) :
    (TransactionService.mkTxn hh uid req amount newId now).householdId = hh := rfl

theorem mkTxn_amount (hh uid : Nat) (req : CreateTransactionRequest)
    (amount : Rat) (newId now : Nat) :
    (TransactionService.mkTxn hh uid req amount newId now).amount = amount := rfl

theorem mkTxn_accountId (hh uid : Nat) (req : CreateTransactionRequest)
    (amount : Rat) (newId now : Nat) :
    (TransactionService.mkTxn hh uid req amount newId now).accountId
      = req.accountId := rfl

theorem txnDelta_mkTxn (hh uid : Nat) (req : CreateTransactionRequest)
    (amount : Rat) (newId now aid : Nat) :
    txnDelta (TransactionService.mkTxn hh uid req amount newId now) aid
      = signedDelta req.type amount req.accountId req.destinationAccountId aid := rfl

theorem txnDelta_updParams (id hh : Nat) (req : UpdateTransactionRequest)
    (amount : Rat) (t : Transaction) (aid : Nat) :
    txnDelta (Queries.applyTxnUpdate
        (TransactionService.updParams id hh req amount) t) aid
      = signedDelta req.type amount req.accountId req.destinationAccountId aid := rfl

/-! Preservation of the well-formed-ledger invariant by each engine
operation (with rollback on failure). -/

theorem goodState_runOp_create {init : Nat → Rat} {s : DBState}
    (hh uid : Nat) (req : CreateTransactionRequest) (newId now : Nat)
    (hg : GoodState init s) :
    GoodState init (runOp s (.create hh uid req newId now)) := by
  unfold runOp
  dsimp only
  cases hc : TransactionService.Create s hh uid req newId now with
  | error e => exact hg
  | ok pr =>
    obtain ⟨txn, s2⟩ := pr
    dsimp only
    obtain ⟨amount, hamt, hguard, htxn, hfresh, htrans, hacc⟩ := create_ok hc
    obtain ⟨hu, hd, hb⟩ := hg
    subst htxn
    refine ⟨?_, ?_, ?_⟩
    · unfold UniqueTxnIds
      rw [htrans, List.map_append, List.nodup_append]
      refine ⟨hu, List.nodup_singleton _, ?_⟩
      intro x hx1 hx2
      obtain ⟨t2, ht2, hid⟩ := List.mem_map.1 hx1
      simp only [List.map_cons, List.map_nil, List.mem_singleton, mkTxn_id] at hx2
      exact hfresh t2 ht2 (by rw [hid, hx2])
    · intro t ht htr
      rw [htrans] at ht
      rcases List.mem_append.1 ht with h1 | h1
      · exact hd t h1 htr
      · have heq : t = TransactionService.mkTxn hh uid req amount newId now := by
          simpa using h1
        subst heq
        rw [mkTxn_type] at htr
        rw [mkTxn_dest]
        intro hdn
        exact hguard ⟨htr, hdn⟩
    · intro a2 ha2
      rw [hacc] at ha2
      obtain ⟨a, ha, rfl⟩ := List.mem_map.1 ha2
      show a.balance + signedDelta req.type amount req.accountId
            req.destinationAccountId a.id
          = init a.id + sumDeltas s2.transactions a.id
      rw [htrans, sumDeltas_append, txnDelta_mkTxn, hb a ha]
      ring


theorem goodState_runOp_update {init : Nat → Rat} {s : DBState}
    (id hh uid : Nat) (req : UpdateTransactionRequest)
    (hg : GoodState init s) :
    GoodState init (runOp s (.update id hh uid req)) := by
  unfold runOp
  dsimp only
  cases hc : TransactionService.Update s id hh uid req with
  | error e => exact hg
  | ok pr =>
    obtain ⟨txn, s3⟩ := pr
    dsimp only
    obtain ⟨hu, hd, hb⟩ := hg
    obtain ⟨amount, old, hamt, hguard, hfind, htxn, htrans, hacc⟩ :=
      update_ok (fun t hft => hd t (List.mem_of_find?_eq_some hft)) hc
    refine ⟨?_, ?_, ?_⟩
    · unfold UniqueTxnIds
      rw [htrans, map_update_one_ids (Queries.txnMatches id hh)
        (Queries.applyTxnUpdate (TransactionService.updParams id hh req amount))
        (fun t => rfl) s.transactions]
      exact hu
    · intro t ht htr
      rw [htrans] at ht
      obtain ⟨t2, ht2, heq⟩ := List.mem_map.1 ht
      by_cases hm : Queries.txnMatches id hh t2
      · rw [if_pos hm] at heq
        subst heq
        intro hdn
        exact hguard ⟨htr, hdn⟩
      · rw [if_neg hm] at heq
        subst heq
        exact hd t2 ht2 htr
    · intro a2 ha2
      rw [hacc] at ha2
      obtain ⟨a, ha, rfl⟩ := List.mem_map.1 ha2
      show a.balance - txnDelta old a.id +
            signedDelta req.type amount req.accountId
              req.destinationAccountId a.id
          = init a.id + sumDeltas s3.transactions a.id
      have hsum := sum_map_update_one (Queries.txnMatches id hh)
        (Queries.applyTxnUpdate (TransactionService.updParams id hh req amount))
        (fun t => txnDelta t a.id)
        (fun t htt t2 htt2 => by rw [txnMatches_id htt, txnMatches_id htt2])
        s.transactions old hu hfind
      rw [htrans]
      show _ = init a.id + ((s.transactions.map (fun t2 =>
        if Queries.txnMatches id hh t2
        then Queries.applyTxnUpdate
          (TransactionService.updParams id hh req amount) t2 else t2)).map
            (fun t => txnDelta t a.id)).sum
      rw [hsum]
      dsimp only
      rw [txnDelta_updParams]
      have hba := hb a ha
      unfold sumDeltas at hba
      rw [hba]
      ring

theorem goodState_runOp_delete {init : Nat → Rat} {s : DBState}
    (id hh : Nat) (hg : GoodState init s) :
    GoodState init (runOp s (.delete id hh)) := by
  unfold runOp
  dsimp only
  cases hc : TransactionService.Delete s id hh with
  | error e => exact hg
  | ok s2 =>
    dsimp only
    obtain ⟨hu, hd, hb⟩ := hg
    obtain ⟨old, hfind, htrans, hacc⟩ := delete_ok hd hc
    refine ⟨?_, ?_, ?_⟩
    · unfold UniqueTxnIds
      rw [htrans]
      exact hu.sublist ((List.filter_sublist _).map _)
    · intro t ht htr
      rw [htrans] at ht
      exact hd t (List.mem_of_mem_filter ht) htr
    · intro a2 ha2
      rw [hacc] at ha2
      obtain ⟨a, ha, rfl⟩ := List.mem_map.1 ha2
      show a.balance - txnDelta old a.id
          = init a.id + sumDeltas s2.transactions a.id
      have hsum := sum_filter_remove_one (Queries.txnMatches id hh)
        (fun t => txnDelta t a.id)
        (fun t htt t2 htt2 => by rw [txnMatches_id htt, txnMatches_id htt2])
        s.transactions old hu hfind
      rw [htrans]
      show _ = init a.id + ((s.transactions.filter (fun t2 =>
        !(Queries.txnMatches id hh t2))).map (fun t => txnDelta t a.id)).sum
      rw [hsum]
      dsimp only
      have hba := hb a ha
      unfold sumDeltas at hba
      rw [hba]
      ring

theorem goodState_runOp {init : Nat → Rat} {s : DBState} (op : LedgerOp)
    (hg : GoodState init s) : GoodState init (runOp s op) := by
  cases op with
  | create hh uid req newId now => exact goodState_runOp_create hh uid req newId now hg
  | update id hh uid req => exact goodState_runOp_update id hh uid req hg
  | delete id hh => exact goodState_runOp_delete id hh hg

theorem goodState_runOps {init : Nat → Rat} :
    ∀ (ops : List LedgerOp) (s : DBState),
      GoodState init s → GoodState init (runOps s ops) := by
  intro ops
  induction ops with
  | nil => intro s hg; exact hg
  | cons op rest ih =>
    intro s hg
    exact ih (runOp s op) (goodState_runOp op hg)

/-! Further helpers: totality of the balance helpers, balance lookups, and
state extensionality. -/

theorem acc_bal_self (a : Account) {x : Rat} (h : x = a.balance) :
    ({ a with balance := x } : Account) = a := by rw [h]

theorem dbstate_ext {x y : DBState} (h1 : x.accounts = y.accounts)
    (h2 : x.transactions = y.transactions) : x = y := by
  cases x
  cases y
  cases h1
  cases h2
  rfl

theorem reverseBalanceChange_total (s : DBState) (ty : TransactionType)
    (A : Rat) (src : Nat) (dst : Option Nat) :
    ∃ s1, TransactionService.reverseBalanceChange s ty A src dst = .ok s1 ∧
      s1.transactions = s.transactions := by
  cases ty with
  | income => exact ⟨_, rfl, rfl⟩
  | expense => exact ⟨_, rfl, rfl⟩
  | transfer =>
    cases dst with
    | none => exact ⟨s, rfl, rfl⟩
    | some d => exact ⟨_, rfl, rfl⟩

theorem applyBalanceChange_total (s : DBState) (ty : TransactionType)
    (A : Rat) (src : Nat) (dst : Option Nat)
    (hne : ¬(ty = .transfer ∧ dst = none)) :
    ∃ s2, TransactionService.applyBalanceChange s ty A src dst = .ok s2 := by
  cases ty with
  | income => exact ⟨_, rfl⟩
  | expense => exact ⟨_, rfl⟩
  | transfer =>
    cases dst with
    | none => exact absurd ⟨rfl, rfl⟩ hne
    | some d => exact ⟨_, rfl⟩

theorem getBalance_updateBalance (s : DBState) (i : Nat) (d : Rat) (aid : Nat) :
    getBalance (Queries.UpdateAccountBalance s i d) aid
      = if aid = i then (getBalance s aid).map (fun b => b + d)
        else getBalance s aid := by
  unfold getBalance Queries.UpdateAccountBalance
  dsimp only
  rw [find?_map_comm (fun a => a.id == aid) _ (fun a => by
    by_cases h : a.id == i
    · rw [if_pos h]
    · rw [if_neg h]) s.accounts]
  cases hf : s.accounts.find? (fun a => a.id == aid) with
  | none => by_cases h : aid = i <;> simp [h]
  | some a =>
    have haid : a.id = aid := by simpa using List.find?_some hf
    by_cases h : aid = i
    · subst h
      simp [haid]
    · simp [haid, h]

/-! Concrete fixtures used in the scenario parts of the claims. -/

def acctChecking : Account :=
  { id := 1, householdId := 5, name := "Checking", type := .card,
    balance := 100, currency := "USD", createdBy := 9, createdAt := 0,
    updatedAt := 0 }

def stateA : DBState := { accounts := [acctChecking], transactions := [] }

def reqIncome50 : CreateTransactionRequest :=
  { type := .income, description := "salary", amount := "50.00",
    accountId := 1, destinationAccountId := none, tags := none, note := none,
    transactedAt := 0 }

/-! The claims. -/

/-- C1: for every account, after any sequence of transaction
Create/Update/Delete operations by the Ledger Mutation Engine (each one an
all-or-nothing unit of work, `runOps`), the account's balance equals its
initial balance plus the sum of the signed deltas of all
currently-existing transactions referencing it — provided the starting
state already satisfies the invariant (with unique transaction ids and
transfer destinations present, as the engine itself guarantees). -/
theorem balance_reconstruction_invariant (init : Nat → Rat) (s : DBState)
    (ops : List LedgerOp) (hg : GoodState init s) :
    ∀ a ∈ (runOps s ops).accounts,
      a.balance = init a.id + sumDeltas (runOps s ops).transactions a.id :=
  (goodState_runOps ops s hg).2.2

/-- Witness for C1: a one-account state with balance 100 and no
transactions, followed by one income-50.00 create. -/
theorem balance_reconstruction_invariant_witness :
    GoodState (fun _ => (100 : Rat)) stateA ∧
    ∀ a ∈ (runOps stateA [LedgerOp.create 5 9 reqIncome50 10 0]).accounts,
      a.balance = (fun _ => (100 : Rat)) a.id +
        sumDeltas (runOps stateA [LedgerOp.create 5 9 reqIncome50 10 0]).transactions a.id :=
  ⟨by with_unfolding_all decide,
   balance_reconstruction_invariant (fun _ => (100 : Rat)) stateA
    [LedgerOp.create 5 9 reqIncome50 10 0] (by with_unfolding_all decide)⟩

/-- C10: reversing the deltas of a transfer whose destination account id is
absent is a silent no-op that succeeds with the state unchanged, whereas
applying the deltas of such a transfer fails with
`TransferMissingDestination`; so for this case reversal is not the exact
negation of application. -/
theorem transfer_reversal_asymmetric_on_missing_destination
    (s : DBState) (A : Rat) (src : Nat) :
    TransactionService.reverseBalanceChange s .transfer A src none = .ok s ∧
    TransactionService.applyBalanceChange s .transfer A src none
      = .error .transferMissingDest :=
  ⟨rfl, rfl⟩

/-- C7: creating (or updating) a transaction of kind transfer with no
destination account id fails with `TransferMissingDestination`, and on that
failure no transaction record is created and no account balance is mutated
(the run leaves the state unchanged).  The amount must parse — a malformed
amount is reported as `InvalidAmount` first. -/
theorem transfer_missing_destination_rejected
    (s : DBState) (id hh uid newId now : Nat)
    (creq : CreateTransactionRequest) (ureq : UpdateTransactionRequest)
    (hcty : creq.type = .transfer) (hcdst : creq.destinationAccountId = none)
    (hcamt : ∃ A, decimal.NewFromString creq.amount = some A)
    (huty : ureq.type = .transfer) (hudst : ureq.destinationAccountId = none)
    (huamt : ∃ A, decimal.NewFromString ureq.amount = some A) :
    TransactionService.Create s hh uid creq newId now
      = .error .transferMissingDest ∧
    runOp s (.create hh uid creq newId now) = s ∧
    TransactionService.Update s id hh uid ureq
      = .error .transferMissingDest ∧
    runOp s (.update id hh uid ureq) = s := by
  obtain ⟨A, hA⟩ := hcamt
  obtain ⟨A2, hA2⟩ := huamt
  have h1 : TransactionService.Create s hh uid creq newId now
      = .error .transferMissingDest := by
    unfold TransactionService.Create
    rw [hA]
    dsimp only
    rw [if_pos ⟨hcty, hcdst⟩]
  have h2 : TransactionService.Update s id hh uid ureq
      = .error .transferMissingDest := by
    unfold TransactionService.Update
    rw [hA2]
    dsimp only
    rw [if_pos ⟨huty, hudst⟩]
  refine ⟨h1, ?_, h2, ?_⟩
  · unfold runOp
    dsimp only
    rw [h1]
  · unfold runOp
    dsimp only
    rw [h2]

/-- Witness for C7: scenario D, a transfer create with no destination on
the one-account state. -/
theorem transfer_missing_destination_rejected_witness :
    (({ type := .transfer, description := "move", amount := "40.00",
        accountId := 1, destinationAccountId := none, tags := none,
        note := none, transactedAt := 0 } : CreateTransactionRequest).type
          = TransactionType.transfer) ∧
    TransactionService.Create stateA 5 9
      { type := .transfer, description := "move", amount := "40.00",
        accountId := 1, destinationAccountId := none, tags := none,
        note := none, transactedAt := 0 } 10 0
      = .error .transferMissingDest ∧
    runOp stateA (.create 5 9
      { type := .transfer, description := "move", amount := "40.00",
        accountId := 1, destinationAccountId := none, tags := none,
        note := none, transactedAt := 0 } 10 0) = stateA := by
  have h := transfer_missing_destination_rejected stateA 10 5 9 10 0
    { type := .transfer, description := "move", amount := "40.00",
      accountId := 1, destinationAccountId := none, tags := none,
      note := none, transactedAt := 0 }
    { type := .transfer, description := "move", amount := "10.00",
      accountId := 1, destinationAccountId := none, tags := none,
      note := none, transactedAt := 0 }
    rfl rfl ⟨40, by with_unfolding_all decide⟩ rfl rfl
    ⟨10, by with_unfolding_all decide⟩
  exact ⟨rfl, h.1, h.2.1⟩

theorem getBalance_map {f : Account → Account} (hid : ∀ x, (f x).id = x.id)
    (hbal : ∀ x, (f x).balance = x.balance) (l : List Account) (aid : Nat) :
    ((l.map f).find? (fun x => x.id == aid)).map (fun x => x.balance)
      = (l.find? (fun x => x.id == aid)).map (fun x => x.balance) := by
  rw [find?_map_comm (fun x => x.id == aid) f (fun x => by simp only [hid]) l]
  cases l.find? (fun x => x.id == aid) with
  | none => rfl
  | some x => simp [hbal]

/-- C8: getting an account or a transaction by (id, householdId) fails with
NotFound both when no record with that id exists and when a record exists
but belongs to a different household, and the two failure cases return the
very same error value — observationally identical, no information leak
about cross-household existence.  (Ids are primary keys: Nodup.) -/
theorem notfound_on_absent_or_cross_household (s : DBState) (id hh : Nat)
    (hanod : (s.accounts.map (fun a => a.id)).Nodup)
    (htnod : (s.transactions.map (fun t => t.id)).Nodup) :
    (s.accounts.find? (fun a => a.id == id) = none →
      AccountService.Get s id hh = .error .accountNotFound) ∧
    (∀ a, s.accounts.find? (fun a2 => a2.id == id) = some a →
      ¬ a.householdId = hh →
      AccountService.Get s id hh = .error .accountNotFound) ∧
    (s.transactions.find? (fun t => t.id == id) = none →
      TransactionService.Get s id hh = .error .transactionNotFound) ∧
    (∀ t, s.transactions.find? (fun t2 => t2.id == id) = some t →
      ¬ t.householdId = hh →
      TransactionService.Get s id hh = .error .transactionNotFound) := by
  refine ⟨?_, ?_, ?_, ?_⟩
  · intro hnone
    unfold AccountService.Get Queries.GetAccount
    have hp : s.accounts.find? (Queries.accMatches id hh) = none := by
      rw [List.find?_eq_none]
      intro x hx
      have h2 := List.find?_eq_none.1 hnone x hx
      simp only [beq_iff_eq] at h2
      simp only [Queries.accMatches, Bool.and_eq_true, beq_iff_eq]
      exact fun hc => h2 hc.1
    rw [hp]
  · intro a hfa hmm2
    unfold AccountService.Get Queries.GetAccount
    have hmem := List.mem_of_find?_eq_some hfa
    have haid : a.id = id := by simpa using List.find?_some hfa
    have hp : s.accounts.find? (Queries.accMatches id hh) = none := by
      rw [List.find?_eq_none]
      intro x hx
      simp only [Queries.accMatches, Bool.and_eq_true, beq_iff_eq]
      rintro ⟨hxid, hxhh⟩
      have hxa : x = a :=
        List.inj_on_of_nodup_map hanod hx hmem (by rw [hxid, haid])
      rw [hxa] at hxhh
      exact hmm2 hxhh
    rw [hp]
  · intro hnone
    unfold TransactionService.Get Queries.GetTransaction
    have hp : s.transactions.find? (Queries.txnMatches id hh) = none := by
      rw [List.find?_eq_none]
      intro x hx
      have h2 := List.find?_eq_none.1 hnone x hx
      simp only [beq_iff_eq] at h2
      simp only [Queries.txnMatches, Bool.and_eq_true, beq_iff_eq]
      exact fun hc => h2 hc.1
    rw [hp]
  · intro t hft hmm2
    unfold TransactionService.Get Queries.GetTransaction
    have hmem := List.mem_of_find?_eq_some hft
    have htid : t.id = id := by simpa using List.find?_some hft
    have hp : s.transactions.find? (Queries.txnMatches id hh) = none := by
      rw [List.find?_eq_none]
      intro x hx
      simp only [Queries.txnMatches, Bool.and_eq_true, beq_iff_eq]
      rintro ⟨hxid, hxhh⟩
      have hxt : x = t :=
        List.inj_on_of_nodup_map htnod hx hmem (by rw [hxid, htid])
      rw [hxt] at hxhh
      exact hmm2 hxhh
    rw [hp]

def acctOther : Account :=
  { id := 3, householdId := 7, name := "Other", type := .cash, balance := 0,
    currency := "USD", createdBy := 9, createdAt := 0, updatedAt := 0 }

def txnOther : Transaction :=
  { id := 4, householdId := 7, type := .income, description := "x",
    amount := 5, accountId := 3, destinationAccountId := none, tags := [],
    note := none, transactedAt := 0, createdBy := 9, createdAt := 0,
    updatedAt := 0 }

def stateX : DBState := { accounts := [acctOther], transactions := [txnOther] }

/-- Witness for C8: a cross-household account get (record with id 3 lives
in household 7, caller passes household 5) and likewise for a transaction,
both answered with the same NotFound errors as pure absence. -/
theorem notfound_on_absent_or_cross_household_witness :
    ((stateX.accounts.map (fun a => a.id)).Nodup ∧
     (stateX.transactions.map (fun t => t.id)).Nodup ∧
     ¬ acctOther.householdId = 5 ∧ ¬ txnOther.householdId = 5) ∧
    AccountService.Get stateX 3 5 = .error .accountNotFound ∧
    TransactionService.Get stateX 4 5 = .error .transactionNotFound := by
  have h3 := notfound_on_absent_or_cross_household stateX 3 5
    (by decide) (by decide)
  have h4 := notfound_on_absent_or_cross_household stateX 4 5
    (by decide) (by decide)
  exact ⟨⟨by decide, by decide, by decide, by decide⟩,
    h3.2.1 acctOther rfl (by decide),
    h4.2.2.2 txnOther rfl (by decide)⟩

/-- C9: account update accepts only the name, kind and currency fields,
each optional with keep-previous (COALESCE) semantics, and never changes
the balance: the updated record keeps its balance, household id, creator id
and creation timestamp, and no account balance anywhere in the table
changes. -/
theorem account_update_frame (s : DBState) (id hh : Nat)
    (req : UpdateAccountRequest) (a : Account)
    (hfind : s.accounts.find? (Queries.accMatches id hh) = some a) :
    ∃ a2 s2, AccountService.Update s id hh req = .ok (a2, s2) ∧
      a2.balance = a.balance ∧ a2.householdId = a.householdId ∧
      a2.createdBy = a.createdBy ∧ a2.createdAt = a.createdAt ∧
      a2.name = req.name.getD a.name ∧
      a2.type = req.type.getD a.type ∧
      a2.currency = req.currency.getD a.currency ∧
      (∀ aid, getBalance s2 aid = getBalance s aid) := by
  unfold AccountService.Update Queries.UpdateAccount
  dsimp only
  rw [hfind]
  dsimp only
  refine ⟨_, _, rfl, rfl, rfl, rfl, rfl, rfl, rfl, rfl, ?_⟩
  intro aid
  unfold getBalance
  dsimp only
  apply getBalance_map
  · intro x
    by_cases hm : Queries.accMatches id hh x
    · rw [if_pos hm]; rfl
    · rw [if_neg hm]
  · intro x
    by_cases hm : Queries.accMatches id hh x
    · rw [if_pos hm]; rfl
    · rw [if_neg hm]

/-- Witness for C9: renaming the Checking account leaves its balance,
household, creator and creation time unchanged. -/
theorem account_update_frame_witness :
    stateA.accounts.find? (Queries.accMatches 1 5) = some acctChecking ∧
    ∃ a2 s2, AccountService.Update stateA 1 5
        { name := some "Main", type := none, currency := none } = .ok (a2, s2) ∧
      a2.balance = acctChecking.balance ∧
      a2.householdId = acctChecking.householdId ∧
      a2.createdBy = acctChecking.createdBy ∧
      a2.createdAt = acctChecking.createdAt ∧
      a2.name = (some "Main").getD acctChecking.name ∧
      a2.type = (none : Option AccountType).getD acctChecking.type ∧
      a2.currency = (none : Option String).getD acctChecking.currency ∧
      (∀ aid, getBalance s2 aid = getBalance stateA aid) :=
  ⟨rfl, account_update_frame stateA 1 5
    { name := some "Main", type := none, currency := none } acctChecking rfl⟩

def txnIncome50 : Transaction := TransactionService.mkTxn 5 9 reqIncome50 50 10 0

def stateA2 : DBState :=
  { accounts := [{ acctChecking with balance := 150 }],
    transactions := [txnIncome50] }

/-- C2: the delta table — income adds +A to the source account and touches
no other account; expense adds −A to the source account and touches no
other account; a transfer adds −A to the source and +A to the destination
and touches no other account; and (scenario A) creating an income of 50.00
on an account with balance 100.00 yields balance 150.00. -/
theorem delta_table_correct :
    (∀ (s s2 : DBState) (A : Rat) (src : Nat) (dst : Option Nat),
      TransactionService.applyBalanceChange s .income A src dst = .ok s2 →
        getBalance s2 src = (getBalance s src).map (fun b => b + A) ∧
        ∀ x, ¬ x = src → getBalance s2 x = getBalance s x) ∧
    (∀ (s s2 : DBState) (A : Rat) (src : Nat) (dst : Option Nat),
      TransactionService.applyBalanceChange s .expense A src dst = .ok s2 →
        getBalance s2 src = (getBalance s src).map (fun b => b - A) ∧
        ∀ x, ¬ x = src → getBalance s2 x = getBalance s x) ∧
    (∀ (s s2 : DBState) (A : Rat) (src d : Nat), ¬ d = src →
      TransactionService.applyBalanceChange s .transfer A src (some d) = .ok s2 →
        getBalance s2 src = (getBalance s src).map (fun b => b - A) ∧
        getBalance s2 d = (getBalance s d).map (fun b => b + A) ∧
        ∀ x, ¬ x = src → ¬ x = d → getBalance s2 x = getBalance s x) ∧
    (TransactionService.Create stateA 5 9 reqIncome50 10 0
        = .ok (txnIncome50, stateA2) ∧
     getBalance stateA 1 = some 100 ∧
     getBalance stateA2 1 = some 150) := by
  refine ⟨?_, ?_, ?_, ?_⟩
  · intro s s2 A src dst h
    have hs2 : Queries.UpdateAccountBalance s src A = s2 := by
      unfold TransactionService.applyBalanceChange at h
      exact Except.ok.inj h
    subst hs2
    constructor
    · rw [getBalance_updateBalance, if_pos rfl]
    · intro x hx
      rw [getBalance_updateBalance, if_neg hx]
  · intro s s2 A src dst h
    have hs2 : Queries.UpdateAccountBalance s src (-A) = s2 := by
      unfold TransactionService.applyBalanceChange at h
      exact Except.ok.inj h
    subst hs2
    constructor
    · rw [getBalance_updateBalance, if_pos rfl]
      cases getBalance s src with
      | none => rfl
      | some b => simp [sub_eq_add_neg]
    · intro x hx
      rw [getBalance_updateBalance, if_neg hx]
  · intro s s2 A src d hds h
    have hs2 : Queries.UpdateAccountBalance
        (Queries.UpdateAccountBalance s src (-A)) d A = s2 := by
      unfold TransactionService.applyBalanceChange at h
      exact Except.ok.inj h
    subst hs2
    refine ⟨?_, ?_, ?_⟩
    · rw [getBalance_updateBalance, if_neg (fun h2 => hds h2.symm),
        getBalance_updateBalance, if_pos rfl]
      cases getBalance s src with
      | none => rfl
      | some b => simp [sub_eq_add_neg]
    · rw [getBalance_updateBalance, if_pos rfl,
        getBalance_updateBalance, if_neg hds]
    · intro x hx hxd
      rw [getBalance_updateBalance, if_neg hxd,
        getBalance_updateBalance, if_neg hx]
  · refine ⟨by with_unfolding_all decide, by with_unfolding_all decide,
      by with_unfolding_all decide⟩

def stateAIncOnly : DBState :=
  { accounts := [{ acctChecking with balance := 150 }], transactions := [] }

/-- Witness for C2: the universally quantified delta-table parts applied to
the scenario-A state. -/
theorem delta_table_correct_witness :
    TransactionService.applyBalanceChange stateA .income (50 : Rat) 1 none
      = .ok stateAIncOnly ∧
    getBalance stateAIncOnly 1 = (getBalance stateA 1).map (fun b => b + 50) := by
  have h : TransactionService.applyBalanceChange stateA .income (50 : Rat) 1 none
      = .ok stateAIncOnly := by
    with_unfolding_all decide
  exact ⟨h, (delta_table_correct.1 stateA _ 50 1 none h).1⟩

def acctSrcE : Account :=
  { id := 1, householdId := 5, name := "A", type := .card, balance := 60,
    currency := "USD", createdBy := 9, createdAt := 0, updatedAt := 0 }

def acctDstE : Account :=
  { id := 2, householdId := 5, name := "B", type := .card, balance := 40,
    currency := "USD", createdBy := 9, createdAt := 0, updatedAt := 0 }

def txnE : Transaction :=
  { id := 10, householdId := 5, type := .transfer, description := "move",
    amount := 40, accountId := 1, destinationAccountId := some 2, tags := [],
    note := none, transactedAt := 0, createdBy := 9, createdAt := 0,
    updatedAt := 0 }

def stateE : DBState := { accounts := [acctSrcE, acctDstE], transactions := [txnE] }

/-- C5 (code bug): `CountTransactionsByAccount` counts only source
(`account_id`) references, so deleting an account that is referenced only
as a transfer destination is NOT blocked with `HasTransactions`: the
delete succeeds and removes the account, although a currently-existing
transaction references it as destination.  Deleting the source account of
the same transaction is blocked, as specified. -/
theorem account_delete_ignores_destination_references :
    (∃ t ∈ stateE.transactions, t.destinationAccountId = some 2) ∧
    AccountService.Delete stateE 2 5
      = .ok { accounts := [acctSrcE], transactions := [txnE] } ∧
    AccountService.Delete stateE 1 5 = .error .accountHasTransactions := by
  with_unfolding_all decide

def reqZero : CreateTransactionRequest :=
  { type := .income, description := "zero", amount := "0", accountId := 1,
    destinationAccountId := none, tags := none, note := none,
    transactedAt := 0 }

def reqNeg : CreateTransactionRequest :=
  { type := .income, description := "neg", amount := "-30", accountId := 1,
    destinationAccountId := none, tags := none, note := none,
    transactedAt := 0 }

def stateZero : DBState :=
  { accounts := [acctChecking],
    transactions := [TransactionService.mkTxn 5 9 reqZero 0 10 0] }

def stateNeg : DBState :=
  { accounts := [{ acctChecking with balance := 70 }],
    transactions := [TransactionService.mkTxn 5 9 reqNeg (-30) 10 0] }

/-- C6 counterexample: Create does NOT reject a zero or negative parsed
amount — the amount strings "0" and "-30" are accepted, a record is
inserted, and the balance deltas 0 and −30 are applied, instead of failing
with `InvalidAmount` as claimed. -/
theorem create_accepts_zero_and_negative_amount :
    TransactionService.Create stateA 5 9 reqZero 10 0
      = .ok (TransactionService.mkTxn 5 9 reqZero 0 10 0, stateZero) ∧
    TransactionService.Create stateA 5 9 reqNeg 10 0
      = .ok (TransactionService.mkTxn 5 9 reqNeg (-30) 10 0, stateNeg) := by
  with_unfolding_all decide

/-- C6 (amended): Create and Update reject a malformed amount string with
`InvalidAmount` before any record is inserted and before any balance is
mutated; an amount string that parses — including zero and negative
values — is accepted. -/
theorem invalid_amount_rejected_before_mutation
    (s : DBState) (id hh uid newId now : Nat)
    (creq : CreateTransactionRequest) (ureq : UpdateTransactionRequest)
    (hc : decimal.NewFromString creq.amount = none)
    (hu : decimal.NewFromString ureq.amount = none) :
    TransactionService.Create s hh uid creq newId now = .error .invalidAmount ∧
    runOp s (.create hh uid creq newId now) = s ∧
    TransactionService.Update s id hh uid ureq = .error .invalidAmount ∧
    runOp s (.update id hh uid ureq) = s := by
  have h1 : TransactionService.Create s hh uid creq newId now
      = .error .invalidAmount := by
    unfold TransactionService.Create
    rw [hc]
  have h2 : TransactionService.Update s id hh uid ureq
      = .error .invalidAmount := by
    unfold TransactionService.Update
    rw [hu]
  refine ⟨h1, ?_, h2, ?_⟩
  · unfold runOp
    dsimp only
    rw [h1]
  · unfold runOp
    dsimp only
    rw [h2]

/-- Witness for C6 (amended): the malformed amount string "abc" is rejected
by Create and Update with no state change. -/
theorem invalid_amount_rejected_before_mutation_witness :
    decimal.NewFromString "abc" = none ∧
    TransactionService.Create stateA 5 9
      { type := .income, description := "bad", amount := "abc",
        accountId := 1, destinationAccountId := none, tags := none,
        note := none, transactedAt := 0 } 10 0 = .error .invalidAmount ∧
    runOp stateA (.create 5 9
      { type := .income, description := "bad", amount := "abc",
        accountId := 1, destinationAccountId := none, tags := none,
        note := none, transactedAt := 0 } 10 0) = stateA := by
  have h := invalid_amount_rejected_before_mutation stateA 10 5 9 10 0
    { type := .income, description := "bad", amount := "abc",
      accountId := 1, destinationAccountId := none, tags := none,
      note := none, transactedAt := 0 }
    { type := .income, description := "bad", amount := "abc",
      accountId := 1, destinationAccountId := none, tags := none,
      note := none, transactedAt := 0 }
    (by decide) (by decide)
  exact ⟨by decide, h.1, h.2.1⟩

/-- C4: for a transaction of any kind, creating it and then immediately
deleting it restores the database to exactly its pre-create state: the
delete succeeds and returns the original state, so every affected
account's balance is bit-for-bit its pre-create value. -/
theorem create_then_delete_roundtrip {s s2 : DBState} {hh uid newId now : Nat}
    {req : CreateTransactionRequest} {txn : Transaction}
    (hc : TransactionService.Create s hh uid req newId now = .ok (txn, s2)) :
    TransactionService.Delete s2 txn.id hh = .ok s := by
  obtain ⟨amount, hamt, hguard, htxn, hfresh, htrans, hacc⟩ := create_ok hc
  subst htxn
  rw [mkTxn_id]
  have hnotold : ∀ x ∈ s.transactions,
      ¬ Queries.txnMatches newId hh x = true := by
    intro x hx hm
    exact hfresh x hx (txnMatches_id hm)
  have hself : Queries.txnMatches newId hh
      (TransactionService.mkTxn hh uid req amount newId now) = true := by
    unfold Queries.txnMatches
    rw [mkTxn_id, mkTxn_householdId]
    simp
  have hfindd : s2.transactions.find? (Queries.txnMatches newId hh)
      = some (TransactionService.mkTxn hh uid req amount newId now) := by
    rw [htrans, List.find?_append, List.find?_eq_none.2 hnotold,
      Option.none_or, List.find?_cons_of_pos _ hself]
  have hdel : Queries.DeleteTransaction s2 newId hh
      = some (TransactionService.mkTxn hh uid req amount newId now,
          { s2 with transactions := (s2.transactions.filter
              (fun t2 => !(Queries.txnMatches newId hh t2))) }) := by
    unfold Queries.DeleteTransaction
    rw [hfindd]
  have hfilter : s2.transactions.filter
      (fun t2 => !(Queries.txnMatches newId hh t2)) = s.transactions := by
    rw [htrans, List.filter_append,
      List.filter_eq_self.2 (fun x hx => by
        simp only [Bool.not_eq_true']
        cases hxx : Queries.txnMatches newId hh x with
        | false => rfl
        | true => exact absurd hxx (hnotold x hx)),
      List.filter_cons_of_neg (by simp [hself]), List.filter_nil,
      List.append_nil]
  unfold TransactionService.Delete
  rw [hdel]
  dsimp only
  obtain ⟨s3, hrev, _⟩ := reverseBalanceChange_total
    { s2 with transactions := (s2.transactions.filter
        (fun t2 => !(Queries.txnMatches newId hh t2))) }
    (TransactionService.mkTxn hh uid req amount newId now).type
    (TransactionService.mkTxn hh uid req amount newId now).amount
    (TransactionService.mkTxn hh uid req amount newId now).accountId
    (TransactionService.mkTxn hh uid req amount newId now).destinationAccountId
  rw [hrev]
  have hne : (TransactionService.mkTxn hh uid req amount newId now).type
        = .transfer →
      (TransactionService.mkTxn hh uid req amount newId now).destinationAccountId
        ≠ none := by
    rw [mkTxn_type, mkTxn_dest]
    intro h1 h2
    exact hguard ⟨h1, h2⟩
  obtain ⟨hrevtr2, hrevacc⟩ := reverseBalanceChange_ok hne hrev
  have hs3 : s3 = s := by
    apply dbstate_ext
    · rw [hrevacc]
      rw [show ({ s2 with transactions := (s2.transactions.filter
          (fun t2 => !(Queries.txnMatches newId hh t2))) } : DBState).accounts
            = s2.accounts from rfl]
      rw [hacc, List.map_map]
      apply map_eq_self_of
      intro a _
      dsimp only [Function.comp]
      apply acc_bal_self
      rw [mkTxn_type, mkTxn_amount, mkTxn_accountId, mkTxn_dest]
      ring
    · rw [hrevtr2]
      exact hfilter
  rw [hs3]

/-- Witness for C4: scenario B shape — create the income on `Checking`,
then delete it; the state returns to exactly `stateA`. -/
theorem create_then_delete_roundtrip_witness :
    TransactionService.Create stateA 5 9 reqIncome50 10 0
      = .ok (txnIncome50, stateA2) ∧
    TransactionService.Delete stateA2 txnIncome50.id 5 = .ok stateA := by
  have h : TransactionService.Create stateA 5 9 reqIncome50 10 0
      = .ok (txnIncome50, stateA2) := by
    with_unfolding_all decide
  exact ⟨h, create_then_delete_roundtrip h⟩

theorem updParams_id (id hh : Nat) (req : UpdateTransactionRequest) (A : Rat) :
    (TransactionService.updParams id hh req A).id = id := rfl

theorem updParams_householdId (id hh : Nat) (req : UpdateTransactionRequest)
    (A : Rat) :
    (TransactionService.updParams id hh req A).householdId = hh := rfl

/-- Helper: an update whose new field values coincide with the pre-image's
succeeds and leaves the accounts table (hence every balance) unchanged. -/
theorem update_identical_ok (s : DBState) (id hh uid : Nat)
    (req : UpdateTransactionRequest) (old : Transaction)
    (hfind : s.transactions.find? (Queries.txnMatches id hh) = some old)
    (hamt : decimal.NewFromString req.amount = some old.amount)
    (hty : req.type = old.type) (haid : req.accountId = old.accountId)
    (hdst : req.destinationAccountId = old.destinationAccountId)
    (hne2 : old.type = .transfer → old.destinationAccountId ≠ none) :
    ∃ txn s3, TransactionService.Update s id hh uid req = .ok (txn, s3) ∧
      s3.accounts = s.accounts := by
  have hg : ¬(req.type = .transfer ∧ req.destinationAccountId = none) := by
    rintro ⟨h1, h2⟩
    rw [hty] at h1
    rw [hdst] at h2
    exact (hne2 h1) h2
  unfold TransactionService.Update
  rw [hamt]
  dsimp only
  rw [if_neg hg]
  rw [show Queries.GetTransaction s id hh = some old from hfind]
  dsimp only
  obtain ⟨s1, hrev, hrevtr⟩ := reverseBalanceChange_total s old.type
    old.amount old.accountId old.destinationAccountId
  rw [hrev]
  dsimp only
  obtain ⟨hrevtr2, hrevacc⟩ := reverseBalanceChange_ok hne2 hrev
  have hfind1 : s1.transactions.find?
      (Queries.txnMatches (TransactionService.updParams id hh req old.amount).id
        (TransactionService.updParams id hh req old.amount).householdId)
      = some old := by
    rw [updParams_id, updParams_householdId, hrevtr]
    exact hfind
  cases hupd : Queries.UpdateTransaction s1
      (TransactionService.updParams id hh req old.amount) with
  | none =>
    exfalso
    unfold Queries.UpdateTransaction at hupd
    rw [hfind1] at hupd
    simp at hupd
  | some pr =>
    obtain ⟨txn1, s2⟩ := pr
    dsimp only
    obtain ⟨old2, hfind2, htxn2, hacc2, htr2⟩ := updateTransaction_ok hupd
    obtain ⟨s3b, happ⟩ := applyBalanceChange_total s2 req.type old.amount
      req.accountId req.destinationAccountId hg
    rw [happ]
    refine ⟨txn1, s3b, rfl, ?_⟩
    obtain ⟨_, happacc⟩ := applyBalanceChange_ok happ
    rw [happacc, hacc2, hrevacc, List.map_map]
    apply map_eq_self_of
    intro a _
    dsimp only [Function.comp]
    apply acc_bal_self
    rw [hty, haid, hdst]
    ring

def acctCA : Account :=
  { id := 1, householdId := 5, name := "A", type := .card, balance := 100,
    currency := "USD", createdBy := 9, createdAt := 0, updatedAt := 0 }

def acctCB : Account :=
  { id := 2, householdId := 5, name := "B", type := .card, balance := 0,
    currency := "USD", createdBy := 9, createdAt := 0, updatedAt := 0 }

def stateC : DBState := { accounts := [acctCA, acctCB], transactions := [] }

def reqTransfer40 : CreateTransactionRequest :=
  { type := .transfer, description := "move", amount := "40.00",
    accountId := 1, destinationAccountId := some 2, tags := none,
    note := none, transactedAt := 0 }

def reqTransfer10 : UpdateTransactionRequest :=
  { type := .transfer, description := "move", amount := "10.00",
    accountId := 1, destinationAccountId := some 2, tags := none,
    note := none, transactedAt := 0 }

def reqSame40 : UpdateTransactionRequest :=
  { type := .transfer, description := "move", amount := "40",
    accountId := 1, destinationAccountId := some 2, tags := none,
    note := none, transactedAt := 0 }

/-- C3: Update reverses the old deltas using the pre-image's own kind,
amount and account ids (not the new input's) and then applies the new
input's deltas — on success every account's balance changes by exactly
−(pre-image delta) + (new delta).  Consequently updating a transaction to
identical field values leaves every balance unchanged, and (scenario C)
updating a 40.00 transfer from A (100.00 initial) to B (0.00 initial) down
to 10.00 yields A=90.00 and B=10.00 (after the create: A=60.00, B=40.00). -/
theorem update_reverses_preimage_then_applies_new :
    (∀ (s s3 : DBState) (id hh uid : Nat) (req : UpdateTransactionRequest)
       (txn : Transaction),
      (∀ t, s.transactions.find? (Queries.txnMatches id hh) = some t →
        t.type = .transfer → t.destinationAccountId ≠ none) →
      TransactionService.Update s id hh uid req = .ok (txn, s3) →
      ∃ amount old, decimal.NewFromString req.amount = some amount ∧
        s.transactions.find? (Queries.txnMatches id hh) = some old ∧
        s3.accounts = s.accounts.map (fun a =>
          { a with balance := (a.balance - txnDelta old a.id +
              signedDelta req.type amount req.accountId
                req.destinationAccountId a.id) })) ∧
    (∀ (s : DBState) (id hh uid : Nat) (req : UpdateTransactionRequest)
       (old : Transaction),
      s.transactions.find? (Queries.txnMatches id hh) = some old →
      decimal.NewFromString req.amount = some old.amount →
      req.type = old.type → req.accountId = old.accountId →
      req.destinationAccountId = old.destinationAccountId →
      (old.type = .transfer → old.destinationAccountId ≠ none) →
      ∃ txn s3, TransactionService.Update s id hh uid req = .ok (txn, s3) ∧
        s3.accounts = s.accounts) ∧
    (getBalance (runOp stateC (.create 5 9 reqTransfer40 10 0)) 1 = some 60 ∧
     getBalance (runOp stateC (.create 5 9 reqTransfer40 10 0)) 2 = some 40 ∧
     getBalance (runOp (runOp stateC (.create 5 9 reqTransfer40 10 0))
       (.update 10 5 9 reqTransfer10)) 1 = some 90 ∧
     getBalance (runOp (runOp stateC (.create 5 9 reqTransfer40 10 0))
       (.update 10 5 9 reqTransfer10)) 2 = some 10) := by
  refine ⟨?_, ?_, ?_⟩
  · intro s s3 id hh uid req txn hdest h
    obtain ⟨amount, old, hamt, hguard, hfind, htxn, htrans, hacc⟩ :=
      update_ok hdest h
    exact ⟨amount, old, hamt, hfind, hacc⟩
  · intro s id hh uid req old hfind hamt hty haid hdst hne2
    exact update_identical_ok s id hh uid req old hfind hamt hty haid hdst hne2
  · refine ⟨?_, ?_, ?_, ?_⟩ <;> with_unfolding_all decide

/-- Witness for C3: updating the 40-transfer in `stateE` to identical
field values succeeds and leaves the accounts table unchanged. -/
theorem update_reverses_preimage_then_applies_new_witness :
    (stateE.transactions.find? (Queries.txnMatches 10 5) = some txnE ∧
     decimal.NewFromString reqSame40.amount = some txnE.amount ∧
     reqSame40.type = txnE.type) ∧
    ∃ txn s3, TransactionService.Update stateE 10 5 9 reqSame40
        = .ok (txn, s3) ∧ s3.accounts = stateE.accounts :=
  ⟨⟨rfl, by with_unfolding_all decide, rfl⟩,
   update_reverses_preimage_then_applies_new.2.1 stateE 10 5 9 reqSame40 txnE
     rfl (by with_unfolding_all decide) rfl rfl rfl (by decide)⟩

end HoWallet
